import Mathlib

/-!
Shallow embedding of the time-series performance analytics of the
wealthwise frontend (the performance dashboard module): windowed
metrics (total return, annualized return, volatility, Sharpe-like
ratio, max drawdown), benchmark-relative metrics (beta, correlation),
per-holding performance, and chart-row building.

Modelling conventions:
* JavaScript numbers are modelled as `ℚ` (the claims under scrutiny are
  exact algebraic identities; float rounding is not modelled).
* ISO calendar-day strings (`"2024-01-31"`) are modelled as `ℤ` day
  numbers; both the lexicographic string comparison and the
  `parseDate`-based comparison of the source agree with `≤` on `ℤ`
  for canonical ISO dates, and the millisecond difference divided by
  86 400 000 is the day-number difference.
* `Math.sqrt` and `Math.pow` are irrational-valued; they are passed as
  abstract function parameters `sqrtFn : ℚ → ℚ` and `powFn : ℚ → ℚ → ℚ`
  so the embedding stays computable and the claims that do not depend
  on their values hold for every choice.
* JavaScript `Record` objects are association lists; a lookup takes the
  last binding written (`forEach` overwrites earlier keys).
-/

namespace Wealthwise

/-- `PricePoint` of the source: one dated sample of a price/level series.
`PortfolioPoint` only adds `equity`/`cash` fields that none of the
analytics functions read, so both are modelled by this structure. -/
structure PricePoint where
  date : ℤ
  value : ℚ
deriving Repr, DecidableEq

/-- `PositionState` of the source: holdings as of a date. -/
structure PositionState where
  date : ℤ
  shares : List (String × ℚ)
  cash : ℚ
deriving Repr, DecidableEq

/-- `HoldingSummary` of the source. -/
structure HoldingSummary where
  symbol : String
  description : String
  shares : ℚ
  current_value : ℚ
  cost_basis : Option ℚ
  gain_abs : Option ℚ
  gain_pct : Option ℚ
deriving Repr, DecidableEq

/-- The fields of `PerformanceResponse` that `computeHoldingPerformance`
reads. -/
structure PerformanceResponse where
  portfolio : List PricePoint
  price_series : List (String × List PricePoint)
  positions : List PositionState
  holdings : List HoldingSummary
deriving Repr, DecidableEq

/-- `Metrics` of the source; `null` is `none`. -/
structure Metrics where
  totalReturn : Option ℚ
  totalAbs : Option ℚ
  annualized : Option ℚ
  volatility : Option ℚ
  maxDrawdown : Option ℚ
  sharpe : Option ℚ
  beta : Option ℚ
  correlation : Option ℚ
deriving Repr, DecidableEq

/-- `emptyMetrics` of the source: every field null. -/
def emptyMetrics : Metrics :=
  { totalReturn := none, totalAbs := none, annualized := none,
    volatility := none, maxDrawdown := none, sharpe := none,
    beta := none, correlation := none }

/-- `stdDev` of the source: population standard deviation (divide by the
length `N`, not `N - 1`), `0` on the empty list.  `Math.sqrt` is the
abstract parameter `sqrtFn`. -/
def stdDev (sqrtFn : ℚ → ℚ) (values : List ℚ) : ℚ :=
  if values.length = 0 then 0
  else
    let mean := values.sum / values.length
    let variance := (values.map (fun v => (v - mean) * (v - mean))).sum / values.length
    sqrtFn variance

/-- The daily-returns loop of `computeMetrics`: for each consecutive pair
with `prev > 0`, push `curr / prev - 1`; other pairs are skipped. -/
def dailyReturns : List PricePoint → List ℚ
  | [] => []
  | [_] => []
  | p :: q :: rest =>
      (if 0 < p.value then [q.value / p.value - 1] else []) ++ dailyReturns (q :: rest)

/-- The loop body of `computeMaxDrawdown`: carries the running peak and
the most negative drawdown seen so far. -/
def drawdownLoop : List ℚ → ℚ → ℚ → ℚ × ℚ
  | [], maxPeak, maxDD => (maxPeak, maxDD)
  | v :: rest, maxPeak, maxDD =>
      let peak := if maxPeak < v then v else maxPeak
      let dd := (v - peak) / peak
      drawdownLoop rest peak (if dd < maxDD then dd else maxDD)

/-- `computeMaxDrawdown` of the source: null on the empty list, else the
absolute value of the most negative `(v - peak) / peak`. -/
def computeMaxDrawdown : List ℚ → Option ℚ
  | [] => none
  | v :: rest => some |(drawdownLoop (v :: rest) v 0).2|

/-- `computeMetrics` of the source.  `sqrtFn` and `powFn` stand for
`Math.sqrt` and `Math.pow`. -/
def computeMetrics (sqrtFn : ℚ → ℚ) (powFn : ℚ → ℚ → ℚ) :
    List PricePoint → Metrics
  | [] => emptyMetrics
  | [_] => emptyMetrics
  | p :: q :: rest =>
      let series := p :: q :: rest
      let first := p
      let last := series.getLast (by simp)
      let days : ℚ := ((last.date - first.date : ℤ) : ℚ)
      let totalReturn : Option ℚ :=
        if 0 < first.value then some (last.value / first.value - 1) else none
      let totalAbs : ℚ := last.value - first.value
      let returns := dailyReturns series
      let volatility : Option ℚ :=
        if returns.length ≠ 0 then some (stdDev sqrtFn returns * sqrtFn 252) else none
      let avgDaily : Option ℚ :=
        if returns.length ≠ 0 then some (returns.sum / returns.length) else none
      let sharpe : Option ℚ :=
        match avgDaily, volatility with
        | some a, some v => if v ≠ 0 ∧ 0 < v then some ((a * 252) / v) else none
        | _, _ => none
      let annualized : Option ℚ :=
        match totalReturn with
        | some tr => if 30 ≤ days then some (powFn (1 + tr) (365 / days) - 1) else none
        | none => none
      { totalReturn := totalReturn,
        totalAbs := some totalAbs,
        annualized := annualized,
        volatility := volatility,
        maxDrawdown := computeMaxDrawdown (series.map PricePoint.value),
        sharpe := sharpe,
        beta := none,
        correlation := none }

/-- The benchmark `Record<string, number>` built by the `forEach` at the
top of `computeRelativeMetrics`: keyed by date, the last write wins. -/
def benchLookup (benchmark : List PricePoint) (d : ℤ) : Option ℚ :=
  (benchmark.reverse.find? (fun b => b.date = d)).map PricePoint.value

/-- The alignment loop of `computeRelativeMetrics`: walks consecutive
portfolio samples (`prev`, then the list of later samples) and pushes a
portfolio return and a benchmark return — one onto each array — exactly
when the benchmark map has a value at both dates and both previous
values are positive. -/
def alignLoop (benchMap : ℤ → Option ℚ) : PricePoint → List PricePoint → List ℚ × List ℚ
  | _, [] => ([], [])
  | prev, curr :: rest =>
      let tail := alignLoop benchMap curr rest
      match benchMap curr.date, benchMap prev.date with
      | some benchVal, some benchPrev =>
          if prev.value ≤ 0 ∨ benchPrev ≤ 0 then tail
          else ((curr.value / prev.value - 1) :: tail.1, (benchVal / benchPrev - 1) :: tail.2)
      | _, _ => tail

/-- The pair of aligned return arrays (`portReturns`, `benchReturns`)
that `computeRelativeMetrics` builds; the loop starts at index 1, so an
empty or one-point portfolio yields two empty arrays. -/
def alignedReturns (portfolio benchmark : List PricePoint) : List ℚ × List ℚ :=
  match portfolio with
  | [] => ([], [])
  | p :: rest => alignLoop (benchLookup benchmark) p rest

/-- `correlation` of the source: Pearson correlation, null on mismatched
or empty arrays and when the square-rooted denominator is zero. -/
def correlation (sqrtFn : ℚ → ℚ) (a b : List ℚ) : Option ℚ :=
  if a.length ≠ b.length ∨ a.length = 0 then none
  else
    let meanA := a.sum / a.length
    let meanB := b.sum / b.length
    let numerator := ((a.zip b).map (fun p => (p.1 - meanA) * (p.2 - meanB))).sum
    let denomA := (a.map (fun v => (v - meanA) * (v - meanA))).sum
    let denomB := (b.map (fun v => (v - meanB) * (v - meanB))).sum
    let denom := sqrtFn (denomA * denomB)
    if denom = 0 then none else some (numerator / denom)

/-- `betaCalc` of the source: covariance over benchmark variance, null on
mismatched or empty arrays and when the benchmark variance sum is zero. -/
def betaCalc (a b : List ℚ) : Option ℚ :=
  if a.length ≠ b.length ∨ a.length = 0 then none
  else
    let meanA := a.sum / a.length
    let meanB := b.sum / b.length
    let cov := ((a.zip b).map (fun p => (p.1 - meanA) * (p.2 - meanB))).sum
    let varB := (b.map (fun v => (v - meanB) * (v - meanB))).sum
    if varB = 0 then none else some (cov / varB)

/-- The two-field value returned by `computeRelativeMetrics`: only the
`beta` and `correlation` fields of `Metrics`. -/
structure RelMetrics where
  beta : Option ℚ
  correlation : Option ℚ
deriving Repr, DecidableEq

/-- `computeRelativeMetrics` of the source. -/
def computeRelativeMetrics (sqrtFn : ℚ → ℚ)
    (portfolio benchmark : List PricePoint) : RelMetrics :=
  let r := alignedReturns portfolio benchmark
  if r.1.length = 0 ∨ r.1.length ≠ r.2.length then
    { beta := none, correlation := none }
  else
    { beta := betaCalc r.1 r.2, correlation := correlation sqrtFn r.1 r.2 }

/-- `findPositionAt` of the source: scans the snapshots in order, keeps
the last one dated at or before `target`, and `break`s at the first one
dated after `target`. -/
def findPositionAt : List PositionState → ℤ → Option PositionState
  | [], _ => none
  | pos :: rest, target =>
      if pos.date ≤ target then
        match findPositionAt rest target with
        | some p => some p
        | none => some pos
      else none

/-- The body of `priceAt` on a present series: last observation dated at
or before `target`, with the same `break` as `findPositionAt`. -/
def priceAtList : List PricePoint → ℤ → Option ℚ
  | [], _ => none
  | point :: rest, target =>
      if point.date ≤ target then
        match priceAtList rest target with
        | some v => some v
        | none => some point.value
      else none

/-- `priceAt` of the source: null when the series is `undefined` or
empty, else the last observation carried forward. -/
def priceAt (series : Option (List PricePoint)) (target : ℤ) : Option ℚ :=
  match series with
  | none => none
  | some s => priceAtList s target

/-- `Record` access `payload.price_series[symbol]`: an absent key is
`undefined`. -/
def seriesFor (payload : PerformanceResponse) (symbol : String) :
    Option (List PricePoint) :=
  (payload.price_series.find? (fun kv => kv.1 = symbol)).map Prod.snd

/-- Optional-chained `state?.shares[symbol] ?? 0` of the source. -/
def sharesOf (state : Option PositionState) (symbol : String) : ℚ :=
  match state with
  | none => 0
  | some s =>
      match s.shares.find? (fun kv => kv.1 = symbol) with
      | none => 0
      | some kv => kv.2

/-- The loop body of `computeHoldingPerformance` for one holding. -/
def computeHoldingRow (payload : PerformanceResponse) (start stop : ℤ)
    (holding : HoldingSummary) : HoldingSummary :=
  let positions := payload.positions
  let startState := findPositionAt positions start
  let endState :=
    match findPositionAt positions stop with
    | some s => some s
    | none => positions.getLast?
  let startShares := sharesOf startState holding.symbol
  let endShares := sharesOf endState holding.symbol
  let series := seriesFor payload holding.symbol
  let startPrice := (priceAt series start).getD 0
  let endPrice := (priceAt series stop).getD startPrice
  let startValue := startShares * startPrice
  let endValue := endShares * endPrice
  let gainAbs := endValue - startValue
  let gainPct := if 0 < startValue then some (gainAbs / startValue) else none
  { holding with
      shares := endShares,
      current_value := endValue,
      gain_abs := some gainAbs,
      gain_pct := gainPct }

/-- Insert a row into a list already sorted descending by
`current_value`, before the first strictly smaller value (stable). -/
def insertDesc (h : HoldingSummary) : List HoldingSummary → List HoldingSummary
  | [] => [h]
  | x :: xs => if x.current_value < h.current_value then h :: x :: xs else x :: insertDesc h xs

/-- The `results.sort((a, b) => b.current_value - a.current_value)` of the
source: a stable sort descending by `current_value`. -/
def sortByValueDesc : List HoldingSummary → List HoldingSummary
  | [] => []
  | h :: rest => insertDesc h (sortByValueDesc rest)

/-- `computeHoldingPerformance` of the source: empty when there are no
position snapshots, else one row per holding, sorted descending by
`current_value`. -/
def computeHoldingPerformance (payload : PerformanceResponse)
    (start stop : ℤ) : List HoldingSummary :=
  if payload.positions.length = 0 then []
  else
    sortByValueDesc (payload.holdings.map (computeHoldingRow payload start stop))

/-- The two chart view modes of the source. -/
inductive ViewMode
  | value
  | indexed
deriving Repr, DecidableEq

/-- The `lookupValue` closure inside `buildChartData`: last observation
dated at or before the target row date, with the same `break` loop. -/
def lookupValue : Option (List PricePoint) → ℤ → Option ℚ
  | none, _ => none
  | some series, target => priceAtList series target

/-- One chart row: `date`, the always-present `Portfolio` field, and the
benchmark/overlay fields that are present (a null lookup contributes no
field for the row). -/
structure ChartRow where
  date : ℤ
  portfolioVal : ℚ
  benchVals : List (String × ℚ)
  overlayVals : List (String × ℚ)
deriving Repr, DecidableEq

/-- The per-series rebasing base of `buildChartData`: the
`series[0]?.value ?? 1` start recorded for each benchmark/overlay key,
composed with the `|| 1` applied at use site — the series' first value,
with `1` substituted when the series is empty or its first value is
zero.  The base is therefore never `0`. -/
def seriesBase (series : List PricePoint) : ℚ :=
  let s := match series.head? with
    | some q => q.value
    | none => 1
  if s = 0 then 1 else s

/-- `buildChartData` of the source: one row per portfolio sample; each
series is rebased in indexed mode against its own first value, with `1`
substituted whenever that first value is absent or zero (`|| 1`). -/
def buildChartData (portfolio : List PricePoint)
    (benchmarks overlays : List (String × List PricePoint))
    (viewMode : ViewMode) : List ChartRow :=
  match portfolio with
  | [] => []
  | p0 :: _ =>
      let baseStart := if p0.value = 0 then 1 else p0.value
      portfolio.map (fun p =>
        { date := p.date,
          portfolioVal :=
            match viewMode with
            | .indexed => (p.value / baseStart - 1) * 100
            | .value => p.value,
          benchVals := benchmarks.filterMap (fun kv =>
            match lookupValue (some kv.2) p.date with
            | some val =>
                some (kv.1,
                  match viewMode with
                  | .indexed => (val / seriesBase kv.2 - 1) * 100
                  | .value => val)
            | none => none),
          overlayVals := overlays.filterMap (fun kv =>
            match lookupValue (some kv.2) p.date with
            | some val =>
                some (kv.1,
                  match viewMode with
                  | .indexed => (val / seriesBase kv.2 - 1) * 100
                  | .value => val)
            | none => none) })

/-- A one-holding payload whose price series for `"A"` has no
observation at or before day 1 (its only sample is on day 5), while a
position snapshot on day 0 holds one share throughout. -/
def samplePayload : PerformanceResponse :=
  { portfolio := [],
    price_series := [("A", [⟨5, 10⟩])],
    positions := [⟨0, [("A", 1)], 0⟩],
    holdings := [⟨"A", "", 0, 0, none, none, none⟩] }

/-- The single holding of `samplePayload`. -/
def sampleHolding : HoldingSummary := ⟨"A", "", 0, 0, none, none, none⟩

/-! ## Helper lemmas -/

/-- Membership in `insertDesc`. -/
theorem mem_insertDesc (a h : HoldingSummary) (l : List HoldingSummary) :
    a ∈ insertDesc h l ↔ a = h ∨ a ∈ l := by
  induction l with
  | nil => simp [insertDesc]
  | cons x xs ih =>
      by_cases hc : x.current_value < h.current_value
      · simp [insertDesc, hc]
      · simp [insertDesc, hc, ih]
        tauto

/-- The descending sort keeps exactly the rows of its input. -/
theorem mem_sortByValueDesc (a : HoldingSummary) (l : List HoldingSummary) :
    a ∈ sortByValueDesc l ↔ a ∈ l := by
  induction l with
  | nil => simp [sortByValueDesc]
  | cons h rest ih => simp [sortByValueDesc, mem_insertDesc, ih]

/-- The daily-returns loop is the filter-map over consecutive pairs:
a return is formed exactly for the pairs whose previous value is
positive. -/
theorem dailyReturns_eq_filterMap (l : List PricePoint) :
    dailyReturns l =
      (l.zip l.tail).filterMap (fun pq =>
        if 0 < pq.1.value then some (pq.2.value / pq.1.value - 1) else none) := by
  match l with
  | [] => rfl
  | [_] => rfl
  | p :: q :: rest =>
      have ih := dailyReturns_eq_filterMap (q :: rest)
      by_cases hp : 0 < p.value <;>
        simp [dailyReturns, ih, hp, List.filterMap_cons]

/-- When every consecutive portfolio pair misses a benchmark value at
one of its two dates, the alignment loop produces two empty arrays. -/
theorem alignLoop_eq_nil (bm : ℤ → Option ℚ) (p : PricePoint) (rest : List PricePoint)
    (h : ∀ pq ∈ (p :: rest).zip rest, bm pq.1.date = none ∨ bm pq.2.date = none) :
    alignLoop bm p rest = ([], []) := by
  induction rest generalizing p with
  | nil => rfl
  | cons q rest ih =>
      have hq := h (p, q) (by simp [List.zip_cons_cons])
      have ht : ∀ pq ∈ (q :: rest).zip rest, bm pq.1.date = none ∨ bm pq.2.date = none := by
        intro pq hm
        refine h pq ?_
        rw [List.zip_cons_cons]
        exact List.mem_cons_of_mem _ hm
      have htail := ih q ht
      cases hcur : bm q.date with
      | none => simp [alignLoop, hcur, htail]
      | some bv =>
          cases hprev : bm p.date with
          | none => simp [alignLoop, hcur, hprev, htail]
          | some bp =>
              rcases hq with h1 | h1
              · rw [hprev] at h1; cases h1
              · rw [hcur] at h1; cases h1

/-- The alignment loop pushes one element onto each array per accepted
pair, so the two arrays always have equal length. -/
theorem alignLoop_length_eq (bm : ℤ → Option ℚ) (p : PricePoint) (rest : List PricePoint) :
    (alignLoop bm p rest).1.length = (alignLoop bm p rest).2.length := by
  induction rest generalizing p with
  | nil => rfl
  | cons q rest ih =>
      cases hcur : bm q.date with
      | none => simpa [alignLoop, hcur] using ih q
      | some bv =>
          cases hprev : bm p.date with
          | none => simpa [alignLoop, hcur, hprev] using ih q
          | some bp =>
              by_cases hcond : p.value ≤ 0 ∨ bp ≤ 0 <;>
                simp [alignLoop, hcur, hprev, hcond, ih q]

/-- The `|| 1` fallback makes every indexed rebasing base nonzero. -/
theorem seriesBase_ne_zero (series : List PricePoint) : seriesBase series ≠ 0 := by
  simp only [seriesBase]
  split_ifs with h
  · norm_num
  · exact h

/-- In a non-increasing chain starting at `x`, the last element is at
most `x`. -/
theorem chain_ge_getLastD_le (x : ℚ) (xs : List ℚ)
    (h : List.Chain (fun a b => b ≤ a) x xs) : xs.getLastD x ≤ x := by
  induction xs generalizing x with
  | nil => simp [List.getLastD]
  | cons y ys ih =>
      rcases List.chain_cons.mp h with ⟨hyx, hch⟩
      rw [List.getLastD_cons]
      exact le_trans (ih y hch) hyx

/-- On a non-decreasing tail, the drawdown loop never records a
negative drawdown: the peak tracks the current value and every
`(v - peak) / peak` is `0`. -/
theorem drawdownLoop_nondecreasing (l : List ℚ) : ∀ peak : ℚ,
    List.Chain (· ≤ ·) peak l → (drawdownLoop l peak 0).2 = 0 := by
  induction l with
  | nil => intro peak _; rfl
  | cons x xs ih =>
      intro peak h
      rcases List.chain_cons.mp h with ⟨hpx, hch⟩
      by_cases hlt : peak < x
      · simp only [drawdownLoop, if_pos hlt, sub_self, zero_div, lt_irrefl, if_neg,
          not_false_iff, if_false]
        exact ih x hch
      · have hpeq : peak = x := le_antisymm hpx (not_lt.mp hlt)
        simp only [drawdownLoop, if_neg hlt, ← hpeq, sub_self, zero_div, lt_irrefl,
          if_false]
        rw [hpeq]
        exact ih x hch

/-- On a non-increasing tail below a positive peak, the drawdown loop
keeps the original peak, and the running minimum ends at the drawdown of
the last (smallest) value. -/
theorem drawdownLoop_antitone (l : List ℚ) : ∀ peak m : ℚ, 0 < peak → m ≤ 0 →
    List.Chain (fun a b => b ≤ a) peak l →
    (drawdownLoop l peak m).2 = min m ((l.getLastD peak - peak) / peak) := by
  induction l with
  | nil =>
      intro peak m _ hm _
      simp [drawdownLoop, List.getLastD, min_eq_left hm]
  | cons x xs ih =>
      intro peak m hpos hm h
      rcases List.chain_cons.mp h with ⟨hxpeak, hch⟩
      have hnlt : ¬peak < x := not_lt.mpr hxpeak
      have hdd : (x - peak) / peak ≤ 0 :=
        div_nonpos_iff.mpr (Or.inr ⟨sub_nonpos.mpr hxpeak, hpos.le⟩)
      have hmin : (if (x - peak) / peak < m then (x - peak) / peak else m) =
          min m ((x - peak) / peak) := by
        rcases lt_or_le ((x - peak) / peak) m with hlt | hle
        · rw [if_pos hlt, min_eq_right hlt.le]
        · rw [if_neg (not_lt.mpr hle), min_eq_left hle]
      have hchpeak : List.Chain (fun a b => b ≤ a) peak xs := by
        cases xs with
        | nil => exact List.Chain.nil
        | cons y ys =>
            rcases List.chain_cons.mp hch with ⟨hyx, hys⟩
            exact List.chain_cons.mpr ⟨le_trans hyx hxpeak, hys⟩
      have hm' : min m ((x - peak) / peak) ≤ 0 := le_trans (min_le_left _ _) hm
      simp only [drawdownLoop, if_neg hnlt, hmin]
      rw [ih peak (min m ((x - peak) / peak)) hpos hm' hchpeak]
      rw [List.getLastD_cons]
      cases xs with
      | nil =>
          simp only [List.getLastD]
          rw [sub_self, zero_div, min_eq_left hm']
      | cons y ys =>
          rw [List.getLastD_cons, List.getLastD_cons]
          have hlast : ys.getLastD y ≤ x := by
            have := chain_ge_getLastD_le x (y :: ys) hch
            rwa [List.getLastD_cons] at this
          have hdle : (ys.getLastD y - peak) / peak ≤ (x - peak) / peak :=
            (div_le_div_iff_of_pos_right hpos).mpr (by linarith)
          rw [min_assoc, min_eq_right hdle]

/-! ## Claims -/

/-- C5: for every portfolio series of length 0 or 1, `computeMetrics`
returns a `Metrics` record in which every field is null. -/
theorem computeMetrics_short_all_null (sqrtFn : ℚ → ℚ) (powFn : ℚ → ℚ → ℚ)
    (series : List PricePoint) (h : series.length < 2) :
    computeMetrics sqrtFn powFn series =
      { totalReturn := none, totalAbs := none, annualized := none,
        volatility := none, maxDrawdown := none, sharpe := none,
        beta := none, correlation := none } := by
  match series with
  | [] => rfl
  | [_] => rfl
  | _ :: _ :: _ => exact absurd h (by simp)

/-- Witness for C5 at the empty and the one-point series. -/
theorem computeMetrics_short_all_null_witness :
    ([] : List PricePoint).length < 2 ∧
      computeMetrics (fun q => q) (fun _ _ => 0) [] =
        { totalReturn := none, totalAbs := none, annualized := none,
          volatility := none, maxDrawdown := none, sharpe := none,
          beta := none, correlation := none } ∧
    [PricePoint.mk 0 100].length < 2 ∧
      computeMetrics (fun q => q) (fun _ _ => 0) [PricePoint.mk 0 100] =
        { totalReturn := none, totalAbs := none, annualized := none,
          volatility := none, maxDrawdown := none, sharpe := none,
          beta := none, correlation := none } :=
  ⟨by decide,
   computeMetrics_short_all_null (fun q => q) (fun _ _ => 0) [] (by decide),
   by decide,
   computeMetrics_short_all_null (fun q => q) (fun _ _ => 0) [⟨0, 100⟩] (by decide)⟩

/-- C10: with an empty positions array, `computeHoldingPerformance`
returns the empty list for every window, holdings list and price-series
map. -/
theorem computeHoldingPerformance_empty_positions
    (portfolio : List PricePoint)
    (price_series : List (String × List PricePoint))
    (holdings : List HoldingSummary) (start stop : ℤ) :
    computeHoldingPerformance
      { portfolio := portfolio, price_series := price_series,
        positions := [], holdings := holdings } start stop = [] := rfl

/-- C4: on the three-point daily series 100, 110, 99 the metrics are
`totalReturn = -0.01`, `totalAbs = -1`, `maxDrawdown = 0.10` (the peak
110 to 99 is a 10% drop) and `annualized = null` because the window
spans only 2 calendar days, fewer than 30 — for every model of
`Math.sqrt` and `Math.pow`. -/
theorem computeMetrics_scenario_100_110_99 (sqrtFn : ℚ → ℚ) (powFn : ℚ → ℚ → ℚ) :
    (computeMetrics sqrtFn powFn [⟨0, 100⟩, ⟨1, 110⟩, ⟨2, 99⟩]).totalReturn = some (-1/100) ∧
    (computeMetrics sqrtFn powFn [⟨0, 100⟩, ⟨1, 110⟩, ⟨2, 99⟩]).totalAbs = some (-1) ∧
    (computeMetrics sqrtFn powFn [⟨0, 100⟩, ⟨1, 110⟩, ⟨2, 99⟩]).maxDrawdown = some (1/10) ∧
    (computeMetrics sqrtFn powFn [⟨0, 100⟩, ⟨1, 110⟩, ⟨2, 99⟩]).annualized = none := by
  refine ⟨?_, ?_, ?_, ?_⟩ <;>
    norm_num [computeMetrics, computeMaxDrawdown, drawdownLoop, List.getLast]

/-- C7: for every series of length ≥ 2 (written `p :: q :: rest`),
`annualized` is `powFn (1 + totalReturn) (365 / days) - 1` exactly when
`totalReturn` is non-null (that is, the first value is positive) and the
calendar-day span `days` between the first and last sample dates is at
least 30; otherwise it is null.  `days` is a date difference, not a
sample count. -/
theorem computeMetrics_annualized (sqrtFn : ℚ → ℚ) (powFn : ℚ → ℚ → ℚ)
    (p q : PricePoint) (rest : List PricePoint) :
    (computeMetrics sqrtFn powFn (p :: q :: rest)).annualized =
      (if 0 < p.value ∧
          (30 : ℚ) ≤ ((((p :: q :: rest).getLast (by simp)).date - p.date : ℤ) : ℚ) then
        some (powFn (1 + (((p :: q :: rest).getLast (by simp)).value / p.value - 1))
          (365 / ((((p :: q :: rest).getLast (by simp)).date - p.date : ℤ) : ℚ)) - 1)
      else none) := by
  by_cases hv : 0 < p.value <;>
    by_cases hd : (30 : ℚ) ≤ ((((p :: q :: rest).getLast (by simp)).date - p.date : ℤ) : ℚ) <;>
      simp [computeMetrics, hv, hd]

/-- C6: for every series of length ≥ 2 (written `p :: q :: rest`), the
`volatility` field is the population standard deviation — the square
root of the squared deviations from the mean divided by `N`, not
`N - 1` — of the daily returns, times the square root of 252, and null
when no return pair exists; and the daily returns are formed exactly for
the consecutive pairs whose previous value is positive (non-positive
previous values are skipped, not treated as zero). -/
theorem computeMetrics_volatility (sqrtFn : ℚ → ℚ) (powFn : ℚ → ℚ → ℚ)
    (p q : PricePoint) (rest : List PricePoint) :
    ((computeMetrics sqrtFn powFn (p :: q :: rest)).volatility =
      (if dailyReturns (p :: q :: rest) = [] then none
       else
        some (sqrtFn
          (((dailyReturns (p :: q :: rest)).map
              (fun v => (v - (dailyReturns (p :: q :: rest)).sum /
                  (dailyReturns (p :: q :: rest)).length) ^ 2)).sum /
            (dailyReturns (p :: q :: rest)).length) * sqrtFn 252))) ∧
    dailyReturns (p :: q :: rest) =
      ((p :: q :: rest).zip (q :: rest)).filterMap (fun pq =>
        if 0 < pq.1.value then some (pq.2.value / pq.1.value - 1) else none) := by
  constructor
  · by_cases hr : dailyReturns (p :: q :: rest) = []
    · simp [computeMetrics, hr]
    · have hlen : (dailyReturns (p :: q :: rest)).length ≠ 0 := by
        simpa [List.length_eq_zero] using hr
      simp only [computeMetrics, hlen, if_true, ne_eq, not_false_iff, if_neg hr]
      simp [stdDev, hlen, sq]
  · simpa using dailyReturns_eq_filterMap (p :: q :: rest)

/-- C2: `computeRelativeMetrics` derives return pairs only for dates
where the benchmark has a value at the date and at the portfolio's
immediately preceding sample date — if every consecutive portfolio pair
misses a benchmark value at one of its endpoints, both `beta` and
`correlation` are null; in particular, for portfolio dates
`[d1, d2, d3]` and benchmark dates `[d1, d3]` with `d2` missing from
the benchmark, no consecutive pair has both endpoints present (the
`d1`-to-`d3` span is not a consecutive portfolio pair), so `beta` and
`correlation` are null. -/
theorem computeRelativeMetrics_date_alignment :
    (∀ (sqrtFn : ℚ → ℚ) (portfolio benchmark : List PricePoint),
       (∀ pq ∈ portfolio.zip portfolio.tail,
          benchLookup benchmark pq.1.date = none ∨
          benchLookup benchmark pq.2.date = none) →
       computeRelativeMetrics sqrtFn portfolio benchmark =
         { beta := none, correlation := none }) ∧
    (∀ (sqrtFn : ℚ → ℚ) (d1 d2 d3 : ℤ) (v1 v2 v3 b1 b3 : ℚ),
       d2 ≠ d1 → d2 ≠ d3 →
       computeRelativeMetrics sqrtFn [⟨d1, v1⟩, ⟨d2, v2⟩, ⟨d3, v3⟩]
         [⟨d1, b1⟩, ⟨d3, b3⟩] = { beta := none, correlation := none }) := by
  have hgen : ∀ (sqrtFn : ℚ → ℚ) (portfolio benchmark : List PricePoint),
      (∀ pq ∈ portfolio.zip portfolio.tail,
         benchLookup benchmark pq.1.date = none ∨
         benchLookup benchmark pq.2.date = none) →
      computeRelativeMetrics sqrtFn portfolio benchmark =
        { beta := none, correlation := none } := by
    intro sqrtFn portfolio benchmark h
    match portfolio with
    | [] => rfl
    | p :: rest =>
        have hnil := alignLoop_eq_nil (benchLookup benchmark) p rest (by simpa using h)
        simp [computeRelativeMetrics, alignedReturns, hnil]
  refine ⟨hgen, ?_⟩
  intro sqrtFn d1 d2 d3 v1 v2 v3 b1 b3 h1 h2
  have hmiss : benchLookup [⟨d1, b1⟩, ⟨d3, b3⟩] d2 = none := by
    simp [benchLookup, List.find?, Ne.symm h1, Ne.symm h2]
  apply hgen
  intro pq hm
  simp only [List.tail, List.zip_cons_cons, List.zip_nil_right, List.mem_cons,
    List.mem_singleton, List.not_mem_nil, or_false] at hm
  rcases hm with rfl | rfl
  · exact Or.inr hmiss
  · exact Or.inl hmiss

/-- Witness for C2 at concrete dates 0, 1, 2 with the benchmark missing
date 1. -/
theorem computeRelativeMetrics_date_alignment_witness :
    computeRelativeMetrics (fun q => q) [⟨0, 100⟩, ⟨1, 110⟩, ⟨2, 99⟩]
      [⟨0, 50⟩, ⟨2, 60⟩] = { beta := none, correlation := none } :=
  computeRelativeMetrics_date_alignment.2 (fun q => q) 0 1 2 100 110 99 50 60
    (by decide) (by decide)

/-- C9: the two aligned return arrays built by `computeRelativeMetrics`
always have equal length, so the length-mismatch arm of its guard is
unreachable: the guard condition holds exactly when the arrays are
empty, and then the result is `{beta: null, correlation: null}`. -/
theorem alignedReturns_balanced (sqrtFn : ℚ → ℚ) (portfolio benchmark : List PricePoint) :
    (alignedReturns portfolio benchmark).1.length =
      (alignedReturns portfolio benchmark).2.length ∧
    (((alignedReturns portfolio benchmark).1.length = 0 ∨
      (alignedReturns portfolio benchmark).1.length ≠
        (alignedReturns portfolio benchmark).2.length) ↔
      (alignedReturns portfolio benchmark).1 = []) ∧
    ((alignedReturns portfolio benchmark).1 = [] →
      computeRelativeMetrics sqrtFn portfolio benchmark =
        { beta := none, correlation := none }) := by
  have hlen : (alignedReturns portfolio benchmark).1.length =
      (alignedReturns portfolio benchmark).2.length := by
    match portfolio with
    | [] => rfl
    | p :: rest => exact alignLoop_length_eq (benchLookup benchmark) p rest
  refine ⟨hlen, ⟨?_, ?_⟩, ?_⟩
  · rintro (h | h)
    · exact List.length_eq_zero.mp h
    · exact absurd hlen h
  · intro h
    left
    simp [h]
  · intro h
    simp [computeRelativeMetrics, h]

/-- Witness for C9's implication at the empty portfolio. -/
theorem alignedReturns_balanced_witness :
    computeRelativeMetrics (fun q => q) [] [] =
      { beta := none, correlation := none } :=
  (alignedReturns_balanced (fun q => q) [] []).2.2 rfl

/-- C1 counterexample: in `samplePayload`, the holding's price series
has no observation at or before the window start (day 1), and the share
count is unchanged (1 share at both endpoints).  The claim predicts a
fallback start price equal to the end price (10), hence
`startValue = 1 * 10` and zero gain; the code instead substitutes 0 as
the start price, and the produced row carries the nonzero gain
`gain_abs = 10` (the entire end value) with `gain_pct = null`. -/
theorem computeHoldingPerformance_start_fallback_counterexample :
    computeHoldingPerformance samplePayload 1 10 =
      [{ symbol := "A", description := "", shares := 1, current_value := 10,
         cost_basis := none, gain_abs := some 10, gain_pct := none }] ∧
    (10 : ℚ) ≠ 0 := by
  refine ⟨?_, by norm_num⟩
  norm_num [computeHoldingPerformance, samplePayload, sortByValueDesc, insertDesc,
    computeHoldingRow, findPositionAt, priceAt, priceAtList, seriesFor, sharesOf,
    List.find?]

/-- C1 amended: for every holding whose price series has no observation
dated at or before the window start, zero (not the end price) is
substituted as the fallback start price, so `startValue = 0`, the row
shows `gain_pct = null` and `gain_abs` equal to its entire end value
`current_value = endShares * endPrice` — a spurious full gain rather
than a zero gain when the start price is missing and shares are
unchanged. -/
theorem computeHoldingPerformance_missing_start_price
    (payload : PerformanceResponse) (start stop : ℤ) (holding : HoldingSummary)
    (hpos : payload.positions ≠ [])
    (hmem : holding ∈ payload.holdings)
    (hmiss : priceAt (seriesFor payload holding.symbol) start = none) :
    computeHoldingRow payload start stop holding ∈
      computeHoldingPerformance payload start stop ∧
    (computeHoldingRow payload start stop holding).gain_pct = none ∧
    (computeHoldingRow payload start stop holding).gain_abs =
      some (computeHoldingRow payload start stop holding).current_value ∧
    (computeHoldingRow payload start stop holding).current_value =
      sharesOf (match findPositionAt payload.positions stop with
                | some s => some s
                | none => payload.positions.getLast?) holding.symbol *
        ((priceAt (seriesFor payload holding.symbol) stop).getD 0) := by
  refine ⟨?_, ?_, ?_, ?_⟩
  · have hlen : ¬payload.positions.length = 0 := by
      simpa [List.length_eq_zero] using hpos
    simp only [computeHoldingPerformance, hlen, if_false, mem_sortByValueDesc,
      List.mem_map]
    exact ⟨holding, hmem, rfl⟩
  · simp [computeHoldingRow, hmiss]
  · simp [computeHoldingRow, hmiss]
  · simp [computeHoldingRow, hmiss]

/-- Witness for C1's amended theorem on `samplePayload`. -/
theorem computeHoldingPerformance_missing_start_price_witness :
    samplePayload.positions ≠ [] ∧
    sampleHolding ∈ samplePayload.holdings ∧
    priceAt (seriesFor samplePayload sampleHolding.symbol) 1 = none ∧
    (computeHoldingRow samplePayload 1 10 sampleHolding ∈
       computeHoldingPerformance samplePayload 1 10 ∧
     (computeHoldingRow samplePayload 1 10 sampleHolding).gain_pct = none ∧
     (computeHoldingRow samplePayload 1 10 sampleHolding).gain_abs =
       some (computeHoldingRow samplePayload 1 10 sampleHolding).current_value ∧
     (computeHoldingRow samplePayload 1 10 sampleHolding).current_value =
       sharesOf (match findPositionAt samplePayload.positions 10 with
                 | some s => some s
                 | none => samplePayload.positions.getLast?) sampleHolding.symbol *
         ((priceAt (seriesFor samplePayload sampleHolding.symbol) 10).getD 0)) :=
  ⟨by decide, by decide, by decide,
   computeHoldingPerformance_missing_start_price samplePayload 1 10 sampleHolding
     (by decide) (by decide) (by decide)⟩

/-- C8 counterexample: the claim fails for every kind of series.  The
portfolio's first in-window value is `V0 = 0`, so the `|| 1` fallback
rebases against 1 and the first row shows `(0/1 - 1) * 100 = -100`, not
0.  Benchmark `"B"` has first in-window value 50 but two observations
at or before the first portfolio date (day 10), so the as-of lookup
resamples its later value 60 and its first row shows
`(60/50 - 1) * 100 = 20`, not 0.  Benchmark `"C"` (first value 70, on
day 20) has no observation at or before day 10, so it is absent from
the first row rather than showing 0. -/
theorem buildChartData_indexed_zero_base_counterexample :
    buildChartData [⟨10, 0⟩]
      [("B", [⟨1, 50⟩, ⟨2, 60⟩]), ("C", [⟨20, 70⟩])] [] ViewMode.indexed =
      [{ date := 10, portfolioVal := -100, benchVals := [("B", 20)],
         overlayVals := [] }] ∧
    (-100 : ℚ) ≠ 0 ∧ (20 : ℚ) ≠ 0 ∧
    (∀ x : ℚ, ("C", x) ∉ [(("B" : String), (20 : ℚ))]) := by
  refine ⟨?_, by norm_num, by norm_num, by simp⟩
  norm_num [buildChartData, lookupValue, priceAtList, seriesBase,
    List.filterMap_cons, List.head?]

/-- C8 amended: in indexed mode the chart always emits a first row, and
every series is rebased against its own independent base, which the
`|| 1` fallbacks keep nonzero.  The portfolio's value at the first row
is `0` if and only if its first in-window value `V0` is nonzero (when
`V0 = 0` the base falls back to 1 and the row shows `-100`).  A
benchmark or overlay key carries an entry at the first row exactly when
the as-of lookup at the first portfolio date returns a value — a series
whose observations all postdate that date is absent, not 0 — and the
entry is `(val / seriesBase - 1) * 100` for the looked-up `val`, which
is `0` exactly when `val` equals that series' own base: when resampling
has moved past the series' first observation the entry is nonzero. -/
theorem buildChartData_indexed_first_row (p0 : PricePoint) (rest : List PricePoint)
    (benchmarks overlays : List (String × List PricePoint)) :
    ∃ row rows,
      buildChartData (p0 :: rest) benchmarks overlays ViewMode.indexed = row :: rows ∧
      (row.portfolioVal = 0 ↔ p0.value ≠ 0) ∧
      (∀ (key : String) (x : ℚ),
         (key, x) ∈ row.benchVals ↔
           ∃ series val, (key, series) ∈ benchmarks ∧
             lookupValue (some series) p0.date = some val ∧
             x = (val / seriesBase series - 1) * 100) ∧
      (∀ (key : String) (x : ℚ),
         (key, x) ∈ row.overlayVals ↔
           ∃ series val, (key, series) ∈ overlays ∧
             lookupValue (some series) p0.date = some val ∧
             x = (val / seriesBase series - 1) * 100) ∧
      (∀ (series : List PricePoint) (val : ℚ),
         (val / seriesBase series - 1) * 100 = 0 ↔ val = seriesBase series) := by
  refine ⟨_, _, by rw [buildChartData]; rw [List.map_cons], ?_, ?_, ?_, ?_⟩
  · by_cases h : p0.value = 0
    · simp only [h, if_pos rfl]
      norm_num
    · simp only [if_neg h]
      simp [div_self h, h]
  · intro key x
    dsimp only
    rw [List.mem_filterMap]
    constructor
    · rintro ⟨⟨k, series⟩, hmem, hf⟩
      dsimp only at hf
      cases hlk : lookupValue (some series) p0.date with
      | none => rw [hlk] at hf; cases hf
      | some val =>
          rw [hlk, Option.some_inj, Prod.mk.injEq] at hf
          obtain ⟨rfl, rfl⟩ := hf
          exact ⟨series, val, hmem, hlk, rfl⟩
    · rintro ⟨series, val, hmem, hlk, rfl⟩
      exact ⟨(key, series), hmem, by dsimp only; rw [hlk]⟩
  · intro key x
    dsimp only
    rw [List.mem_filterMap]
    constructor
    · rintro ⟨⟨k, series⟩, hmem, hf⟩
      dsimp only at hf
      cases hlk : lookupValue (some series) p0.date with
      | none => rw [hlk] at hf; cases hf
      | some val =>
          rw [hlk, Option.some_inj, Prod.mk.injEq] at hf
          obtain ⟨rfl, rfl⟩ := hf
          exact ⟨series, val, hmem, hlk, rfl⟩
    · rintro ⟨series, val, hmem, hlk, rfl⟩
      exact ⟨(key, series), hmem, by dsimp only; rw [hlk]⟩
  · intro series val
    have hb := seriesBase_ne_zero series
    constructor
    · intro h
      have h1 : val / seriesBase series - 1 = 0 := by
        rcases mul_eq_zero.mp h with h' | h'
        · exact h'
        · norm_num at h'
      have h2 : val / seriesBase series = 1 := by linarith
      rw [div_eq_iff hb] at h2
      linarith
    · rintro rfl
      rw [div_self hb]
      ring

/-- C3 counterexample: for the single-point series, the metrics
computation (`computeMetrics`) returns `maxDrawdown = null`, not the
claimed non-null `0` — the length-below-2 guard yields all-null
`Metrics` before `computeMaxDrawdown` (which itself would give
`some 0`) is ever reached. -/
theorem computeMetrics_maxDrawdown_single_point_counterexample :
    (computeMetrics (fun q => q) (fun _ _ => 0) [⟨0, 100⟩]).maxDrawdown = none ∧
    computeMaxDrawdown [100] = some 0 := by
  refine ⟨rfl, ?_⟩
  norm_num [computeMaxDrawdown, drawdownLoop]

/-- C3 amended: `computeMaxDrawdown` is non-negative and non-null on
every non-empty value list; it is `0` on a single point and on every
non-decreasing series; on a series that only decreases monotonically
from a positive first value it equals `1 - min/max` (the minimum is the
last value, the maximum the first).  Through `computeMetrics`, however,
the `maxDrawdown` field is non-null only for series of length ≥ 2: a
series of length 0 or 1 yields `maxDrawdown = null`. -/
theorem maxDrawdown_properties :
    (∀ (v : ℚ) (rest : List ℚ), ∃ d, computeMaxDrawdown (v :: rest) = some d ∧ 0 ≤ d) ∧
    (∀ v : ℚ, computeMaxDrawdown [v] = some 0) ∧
    (∀ (v : ℚ) (rest : List ℚ), List.Chain (· ≤ ·) v rest →
       computeMaxDrawdown (v :: rest) = some 0) ∧
    (∀ (v : ℚ) (rest : List ℚ), List.Chain (fun a b => b ≤ a) v rest → 0 < v →
       computeMaxDrawdown (v :: rest) = some (1 - rest.getLastD v / v)) ∧
    (∀ (sqrtFn : ℚ → ℚ) (powFn : ℚ → ℚ → ℚ) (p q : PricePoint) (rest : List PricePoint),
       (computeMetrics sqrtFn powFn (p :: q :: rest)).maxDrawdown ≠ none) ∧
    (∀ (sqrtFn : ℚ → ℚ) (powFn : ℚ → ℚ → ℚ) (series : List PricePoint),
       series.length < 2 → (computeMetrics sqrtFn powFn series).maxDrawdown = none) := by
  have hstep : ∀ v : ℚ, drawdownLoop [v] v 0 = (v, 0) := by
    intro v
    simp [drawdownLoop, lt_irrefl]
  have hfirst : ∀ (v : ℚ) (rest : List ℚ),
      drawdownLoop (v :: rest) v 0 = drawdownLoop rest v 0 := by
    intro v rest
    simp [drawdownLoop, lt_irrefl]
  refine ⟨?_, ?_, ?_, ?_, ?_, ?_⟩
  · intro v rest
    exact ⟨_, rfl, abs_nonneg _⟩
  · intro v
    simp [computeMaxDrawdown, hstep]
  · intro v rest hch
    rw [computeMaxDrawdown, hfirst, drawdownLoop_nondecreasing rest v hch]
    simp
  · intro v rest hch hpos
    have hlast : rest.getLastD v ≤ v := chain_ge_getLastD_le v rest hch
    have hddlast : (rest.getLastD v - v) / v ≤ 0 :=
      div_nonpos_iff.mpr (Or.inr ⟨sub_nonpos.mpr hlast, hpos.le⟩)
    rw [computeMaxDrawdown, hfirst,
      drawdownLoop_antitone rest v 0 hpos le_rfl hch,
      min_eq_right hddlast, abs_of_nonpos hddlast]
    rw [← neg_div, neg_sub, sub_div, div_self hpos.ne']
  · intro sqrtFn powFn p q rest
    simp [computeMetrics, computeMaxDrawdown]
  · intro sqrtFn powFn series h
    match series with
    | [] => rfl
    | [_] => rfl
    | _ :: _ :: _ => exact absurd h (by simp)

/-- Witness for C3's amended theorem on the decreasing series
`[100, 90, 80]`: the drawdown is `1 - 80/100`. -/
theorem maxDrawdown_properties_witness :
    computeMaxDrawdown [(100 : ℚ), 90, 80] = some (1 - 80 / 100) := by
  have h := maxDrawdown_properties.2.2.2.1 100 [90, 80]
    (List.Chain.cons (by norm_num) (List.Chain.cons (by norm_num) List.Chain.nil))
    (by norm_num)
  rw [List.getLastD_cons, List.getLastD_cons] at h
  simpa using h

end Wealthwise
